import Mathlib

/-!
Shallow embedding of the go-feature-flag client core (package `ffclient`,
file `src/unnamed/part_000`) and of the relay-proxy API-key checks
(`src/cmd/relayproxy/config/config.go`), together with theorems about the
refresh cycle, construction-time validation, teardown and key lookup.

Go maps from flag keys to DTOs are embedded as association lists with
overwrite-on-insert semantics; Go `time.Duration` is embedded as `Int`
(nanoseconds); errors are embedded with `Except String`.

Definitions come first (the embedding of the source and of the concrete
scenarios); all lemmas and theorems follow.
-/

/-!
Shallow embedding of the go-feature-flag client core (package `ffclient`,
file `src/unnamed/part_000`) and of the relay-proxy API-key checks
(`src/cmd/relayproxy/config/config.go`), together with theorems about the
refresh cycle, construction-time validation, teardown and key lookup.

Go maps from flag keys to DTOs are embedded as association lists with
overwrite-on-insert semantics; Go `time.Duration` is embedded as `Int`
(nanoseconds); errors are embedded with `Except String`.
-/

deriving instance DecidableEq for Except

namespace FFClient

/-- A flag map (Go `map[string]dto.DTO`): association list from key to DTO,
at most one binding per key is reachable through `lookupKV`. -/
abbrev FlagMap (V : Type) := List (String × V)

/-- Lookup in a flag map: the first binding for the key, if any. -/
def lookupKV {V : Type} (m : FlagMap V) (k : String) : Option V :=
  match m with
  | [] => none
  | (k', v) :: rest => if k' = k then some v else lookupKV rest k

/-- Go map assignment `m[k] = v`: replace the binding for `k` if present,
append it otherwise. -/
def insertKV {V : Type} (m : FlagMap V) (k : String) (v : V) : FlagMap V :=
  match m with
  | [] => [(k, v)]
  | (k', v') :: rest =>
      if k' = k then (k, v) :: rest else (k', v') :: insertKV rest k v

/-- Merge one source's flag map into the accumulator
(the inner loop `for flagName, value := range flags`): every binding of `m`
is written over `acc`. -/
def mergeOne {V : Type} (acc m : FlagMap V) : FlagMap V :=
  m.foldl (fun a kv => insertKV a kv.1 kv.2) acc

/-- Merge the per-source results in ascending index order
(the loop `for _, flags := range retrieversResults` over the slot array):
later sources overwrite earlier ones. -/
def mergeAll {V : Type} (ms : List (FlagMap V)) : FlagMap V :=
  ms.foldl mergeOne []

/-- A flag map that faithfully embeds a Go map binds each key at most once. -/
def KeysNodup {V : Type} (m : FlagMap V) : Prop := (m.map Prod.fst).Nodup

instance {V : Type} (m : FlagMap V) : Decidable (KeysNodup m) := by
  unfold KeysNodup; infer_instance

/-! ## Retrievers and one refresh cycle (`retrieveFlagsAndUpdateCache`) -/

/-- Readiness status of a retriever (`retriever.RetrieverReady` etc.). -/
inductive RetrieverStatus
  | NotReady
  | Ready
  | Error
deriving DecidableEq, Repr

/-- A retriever as one refresh cycle observes it: whether the dynamic cast to
`retriever.InitializableRetriever` succeeds, the reported status, and the
outcome of `Retrieve(ctx)` (raw content of abstract type `B`, or a hard
error). -/
structure Retriever (B : Type) where
  initializable : Bool
  status : RetrieverStatus
  retrieve : Except String B
deriving Repr, DecidableEq

instance {B : Type} : Inhabited (Retriever B) :=
  ⟨⟨false, RetrieverStatus.Ready, Except.error ""⟩⟩

/-- One message on `resultsChan` (the local `Results` struct of
`retrieveFlagsAndUpdateCache`). -/
structure Results (V : Type) where
  error : Option String
  value : FlagMap V
  index : Nat
deriving Repr

/-- Body of the per-source goroutine in `retrieveFlagsAndUpdateCache`: a
non-`Ready` initializable retriever sends an empty map with no error;
otherwise `Retrieve` runs and then `cache.ConvertToFlagStruct` (which is not
under `src/` and is therefore passed abstractly as `convert`); either step's
error is sent on the channel. -/
def sourceResult {B V : Type} (convert : B → String → Except String (FlagMap V))
    (format : String) (r : Retriever B) (index : Nat) : Results V :=
  if r.initializable = true ∧ r.status ≠ RetrieverStatus.Ready then
    { error := none, value := [], index := index }
  else
    match r.retrieve with
    | Except.error e => { error := some e, value := [], index := index }
    | Except.ok raw =>
        match convert raw format with
        | Except.error e => { error := some e, value := [], index := index }
        | Except.ok m => { error := none, value := m, index := index }

/-- The receive loop `for v := range resultsChan`: messages arrive in the
scheduler-chosen completion `order`; the first message carrying an error
aborts the loop, otherwise each value is stored into the slot of its source
index (`retrieversResults[v.Index] = v.Value`). -/
def collectResults {V : Type} (res : Nat → Results V) (order : List Nat)
    (slots : List (FlagMap V)) : Except String (List (FlagMap V)) :=
  match order with
  | [] => Except.ok slots
  | i :: rest =>
      match (res i).error with
      | some e => Except.error e
      | none => collectResults res rest (slots.set (res i).index (res i).value)

/-- Modelled from the spec: the Flag Cache snapshot (`cache.Manager` is not
under `src/`) — the current merged Flag Definition Set plus a last-refresh
timestamp, replaced wholesale and never mutated in place. -/
structure CacheState (V : Type) where
  flags : FlagMap V
  lastRefresh : Nat
deriving Repr, DecidableEq

/-- Modelled from the spec: `cache.Manager.UpdateCache` (§4.2 `Replace`)
installs the new Flag Definition Set wholesale and updates the last-refresh
timestamp to the replacement instant `now`. -/
def UpdateCache {V : Type} (_c : CacheState V) (newFlags : FlagMap V)
    (now : Nat) : CacheState V :=
  { flags := newFlags, lastRefresh := now }

/-- `retrieveFlagsAndUpdateCache`: one task per retriever (`sourceResult`),
results received in completion order `order`, abort on the first error (the
caller then keeps the previous `CacheState`), otherwise index-ordered merge
of the slot array and wholesale cache replacement. -/
def retrieveFlagsAndUpdateCache {B V : Type}
    (convert : B → String → Except String (FlagMap V)) (format : String)
    (retrievers : List (Retriever B)) (c : CacheState V) (order : List Nat)
    (now : Nat) : Except String (CacheState V) :=
  let res := fun i => sourceResult convert format (retrievers.getD i default) i
  match collectResults res order (List.replicate retrievers.length []) with
  | Except.error e => Except.error e
  | Except.ok slots => Except.ok (UpdateCache c (mergeAll slots) now)

/-- The per-source contributions of one cycle, listed in ascending source
index order (the contents of `retrieversResults` when no task errs). -/
def cycleValues {B V : Type} (convert : B → String → Except String (FlagMap V))
    (format : String) (rs : List (Retriever B)) : List (FlagMap V) :=
  (List.range rs.length).map fun i =>
    (sourceResult convert format (rs.getD i default) i).value

/-! ## The `GoFeatureFlag` object: construction, refresh, teardown -/

/-- `time.Second` expressed in nanoseconds (`time.Duration` is embedded as
`Int` nanoseconds). -/
def timeSecond : Int := 1000000000

/-- The fields of `ffclient.Config` that the embedded operations read. -/
structure Config where
  pollingInterval : Int
  offline : Bool
  startWithRetrieverError : Bool
  fileFormat : String
  enablePollingJitter : Bool
  hasExporter : Bool
deriving Repr, DecidableEq

/-- The polling-interval switch at the top of `New` (lines 59–71): zero takes
the 60-second default, a negative value is a construction error, a positive
value below one second is clamped to one second, anything else is kept. -/
def normalizePollingInterval (pi : Int) : Except String Int :=
  if pi = 0 then Except.ok (60 * timeSecond)
  else if pi < 0 then
    Except.error (toString pi ++ " is not a valid PollingInterval value, it need to be > 0")
  else if pi < timeSecond then Except.ok timeSecond
  else Except.ok pi

/-- Modelled from the spec: the empty snapshot `cache.New` starts from
(`cache.New` is not under `src/`). -/
def emptyCache {V : Type} : CacheState V := { flags := [], lastRefresh := 0 }

/-- Modelled from the spec: the Export Scheduler state that teardown touches
(`exporter.Scheduler` is not under `src/`) — the buffered events, the batches
handed to the sink so far, and whether the daemon is stopped. -/
structure ExporterState (E : Type) where
  buffer : List E
  exported : List (List E)
  stopped : Bool
deriving Repr, DecidableEq

/-- The `GoFeatureFlag` object: configuration, the retriever manager's
ordered sources, the cache (absent in offline mode, as `g.cache` stays nil),
and the component state that `Close` touches. -/
structure GoFeatureFlag (B V E : Type) where
  config : Config
  retrievers : List (Retriever B)
  cache : Option (CacheState V)
  bgUpdaterPresent : Bool
  bgUpdaterStopped : Bool
  exporter : Option (ExporterState E)
  managerPresent : Bool
  managerShutdown : Bool
deriving DecidableEq

/-- The non-offline instance `New` assembles: cache attached, background
updater running, exporter present when configured, retriever manager owned. -/
def mkInstance {B V E : Type} (cfg : Config) (retrievers : List (Retriever B))
    (c : CacheState V) : GoFeatureFlag B V E :=
  { config := cfg
    retrievers := retrievers
    cache := some c
    bgUpdaterPresent := true
    bgUpdaterStopped := false
    exporter := if cfg.hasExporter then some ⟨[], [], false⟩ else none
    managerPresent := true
    managerShutdown := false }

/-- The first synchronous fetch-merge-replace cycle inside `New`
(lines 101–104): on failure, construction fails unless
`StartWithRetrieverError` is set, in which case the instance starts on the
still-empty cache. -/
def newCycleStep {B V E : Type}
    (convert : B → String → Except String (FlagMap V)) (cfg : Config)
    (retrievers : List (Retriever B)) (order : List Nat) (now : Nat) :
    Except String (GoFeatureFlag B V E) :=
  match retrieveFlagsAndUpdateCache convert cfg.fileFormat retrievers emptyCache
      order now with
  | Except.error e =>
      if cfg.startWithRetrieverError then
        Except.ok (mkInstance cfg retrievers emptyCache)
      else
        Except.error
          ("impossible to retrieve the flags, please check your configuration: " ++ e)
  | Except.ok c1 => Except.ok (mkInstance cfg retrievers c1)

/-- The offline instance `New` returns: configuration only, every component
left nil. -/
def offlineInstance {B V E : Type} (cfg : Config) : GoFeatureFlag B V E :=
  { config := cfg
    retrievers := []
    cache := none
    bgUpdaterPresent := false
    bgUpdaterStopped := false
    exporter := none
    managerPresent := false
    managerShutdown := false }

/-- The body of `New` after interval normalization (lines 73–118), over the
already-normalized configuration: in offline mode return a bare instance,
otherwise run the retriever-manager `Init` (its outcome, external to `src/`,
is the `initResult` input) and then the first synchronous refresh cycle. -/
def newWithConfig {B V E : Type}
    (convert : B → String → Except String (FlagMap V)) (cfg : Config)
    (retrievers : List (Retriever B)) (initResult : Except String Unit)
    (order : List Nat) (now : Nat) : Except String (GoFeatureFlag B V E) :=
  if cfg.offline then Except.ok (offlineInstance cfg)
  else
    match initResult with
    | Except.error e =>
        if cfg.startWithRetrieverError then
          newCycleStep convert cfg retrievers order now
        else
          Except.error
            ("impossible to initialize the retrievers, please check your configuration: "
              ++ e)
    | Except.ok _ => newCycleStep convert cfg retrievers order now

/-- `ffclient.New` (lines 58–118): normalize the polling interval (a
negative value aborts construction), then assemble the instance from the
normalized configuration. -/
def New {B V E : Type} (convert : B → String → Except String (FlagMap V))
    (cfg : Config) (retrievers : List (Retriever B))
    (initResult : Except String Unit) (order : List Nat) (now : Nat) :
    Except String (GoFeatureFlag B V E) :=
  match normalizePollingInterval cfg.pollingInterval with
  | Except.error e => Except.error e
  | Except.ok npi =>
      newWithConfig convert { cfg with pollingInterval := npi } retrievers
        initResult order now

/-- `GoFeatureFlag.IsOffline` (reads `config.Offline`). -/
def GoFeatureFlag.IsOffline {B V E : Type} (g : GoFeatureFlag B V E) : Bool :=
  g.config.offline

/-- `GoFeatureFlag.ForceRefresh` (lines 237–247): skip entirely when offline;
otherwise run one cycle, keep the previous state and answer `false` on
error, install the new cache and answer `true` on success. -/
def ForceRefresh {B V E : Type}
    (convert : B → String → Except String (FlagMap V)) (g : GoFeatureFlag B V E)
    (order : List Nat) (now : Nat) : Bool × GoFeatureFlag B V E :=
  if g.IsOffline then (false, g)
  else
    match retrieveFlagsAndUpdateCache convert g.config.fileFormat g.retrievers
        (g.cache.getD emptyCache) order now with
    | Except.error _ => (false, g)
    | Except.ok c1 => (true, { g with cache := some c1 })

/-- How many `Retrieve` invocations one cycle performs: one per retriever
that passes the readiness check (the per-source goroutine returns before
`r.Retrieve(ctx)` only for a non-`Ready` initializable retriever). -/
def cycleRetrieveCalls {B : Type} (rs : List (Retriever B)) : Nat :=
  (rs.filter fun r =>
    !(r.initializable && !(r.status = RetrieverStatus.Ready))).length

/-- How many `Retrieve` invocations one `ForceRefresh` call performs: the
offline branch returns before the cycle starts, so zero there. -/
def forceRefreshRetrieveCalls {B V E : Type} (g : GoFeatureFlag B V E) : Nat :=
  if g.IsOffline then 0 else cycleRetrieveCalls g.retrievers

/-! ## Teardown (`GoFeatureFlag.Close` and the package-level `Close`) -/

/-- One teardown step of `GoFeatureFlag.Close`, recorded in execution
order. -/
inductive TeardownStep
  | closeCache
  | stopBgUpdater
  | closeExporter
  | shutdownManager
deriving DecidableEq, Repr

/-- Modelled from the spec: `cache.Manager.Close` clears the snapshot, so
subsequent lookups return not-found (§4.2); clearing twice is harmless. -/
def cacheClose {V : Type} (c : CacheState V) : CacheState V :=
  { c with flags := [] }

/-- Modelled from the spec: `exporter.Scheduler.Close` performs one final
synchronous flush of any non-empty remaining buffer, then stops the daemon;
a second close finds an empty buffer and flushes nothing. -/
def exporterClose {E : Type} (s : ExporterState E) : ExporterState E :=
  { buffer := []
    exported := if s.buffer.isEmpty then s.exported else s.exported ++ [s.buffer]
    stopped := true }

/-- `GoFeatureFlag.Close` (lines 122–139): with a non-nil receiver, close the
cache if present, stop the background updater if its channel and ticker are
present, close the data exporter if present, shut the retriever manager down
if present (the stop and shutdown themselves are modelled from the spec as
idempotent flags). Returns the new state and the steps performed, in
order. -/
def GoFeatureFlagClose {B V E : Type} (g : GoFeatureFlag B V E) :
    GoFeatureFlag B V E × List TeardownStep :=
  let p1 : GoFeatureFlag B V E × List TeardownStep :=
    match g.cache with
    | some c => ({ g with cache := some (cacheClose c) }, [TeardownStep.closeCache])
    | none => (g, [])
  let p2 : GoFeatureFlag B V E × List TeardownStep :=
    if p1.1.bgUpdaterPresent then
      ({ p1.1 with bgUpdaterStopped := true }, p1.2 ++ [TeardownStep.stopBgUpdater])
    else p1
  let p3 : GoFeatureFlag B V E × List TeardownStep :=
    match p2.1.exporter with
    | some s =>
        ({ p2.1 with exporter := some (exporterClose s) },
          p2.2 ++ [TeardownStep.closeExporter])
    | none => p2
  if p3.1.managerPresent then
    ({ p3.1 with managerShutdown := true }, p3.2 ++ [TeardownStep.shutdownManager])
  else p3

/-- The package-level singleton state: the `onceFF` guard and the
default `ff` instance. -/
structure PackageState (B V E : Type) where
  onceDone : Bool
  ff : Option (GoFeatureFlag B V E)

/-- Package-level `Close` (lines 286–290): reset `onceFF`, then close the
default instance; the method's nil-receiver guard makes this a no-op when
`ff` was never assigned. -/
def PackageClose {B V E : Type} (s : PackageState B V E) :
    PackageState B V E × List TeardownStep :=
  match s.ff with
  | none => ({ s with onceDone := false }, [])
  | some g =>
      let (g1, t) := GoFeatureFlagClose g
      ({ onceDone := false, ff := some g1 }, t)

/-! ## Concrete scenarios exercising the theorems -/

/-- Concrete converter: raw "zero" becomes `{a:1}`, raw "one" becomes
`{a:2, b:3}`, anything else is a conversion error. -/
def convertW : String → String → Except String (FlagMap Nat) :=
  fun raw _ =>
    if raw = "zero" then Except.ok [("a", 1)]
    else if raw = "one" then Except.ok [("a", 2), ("b", 3)]
    else Except.error "unsupported content"

/-- Two healthy sources. -/
def rsW : List (Retriever String) :=
  [{ initializable := false, status := RetrieverStatus.Ready,
     retrieve := Except.ok "zero" },
   { initializable := false, status := RetrieverStatus.Ready,
     retrieve := Except.ok "one" }]

/-- Source 1 fails hard. -/
def rsErrW : List (Retriever String) :=
  [{ initializable := false, status := RetrieverStatus.Ready,
     retrieve := Except.ok "zero" },
   { initializable := false, status := RetrieverStatus.Ready,
     retrieve := Except.error "boom" }]

/-- Source 0 is an initializable retriever still handshaking. -/
def rsNotReadyW : List (Retriever String) :=
  [{ initializable := true, status := RetrieverStatus.NotReady,
     retrieve := Except.ok "zero" },
   { initializable := false, status := RetrieverStatus.Ready,
     retrieve := Except.ok "one" }]

def cfgW : Config :=
  { pollingInterval := 60 * timeSecond, offline := false,
    startWithRetrieverError := false, fileFormat := "yaml",
    enablePollingJitter := false, hasExporter := true }

def cfgStartErrW : Config := { cfgW with startWithRetrieverError := true }

/-- A fully assembled instance over the two healthy sources. -/
def gW : GoFeatureFlag String Nat Unit :=
  { config := cfgW, retrievers := rsW, cache := some emptyCache,
    bgUpdaterPresent := true, bgUpdaterStopped := false,
    exporter := some { buffer := [], exported := [], stopped := false },
    managerPresent := true, managerShutdown := false }

def gErrW : GoFeatureFlag String Nat Unit := { gW with retrievers := rsErrW }

def gOffW : GoFeatureFlag String Nat Unit :=
  { gW with config := { cfgW with offline := true } }

/-- The cache states the two example runs of the cycle install. -/
def cAW : CacheState Nat := { flags := [("a", 2), ("b", 3)], lastRefresh := 3 }

def cBW : CacheState Nat := { flags := [("a", 2), ("b", 3)], lastRefresh := 4 }

def cfgNegW : Config := { cfgW with pollingInterval := -1, offline := true }

def cfgZeroW : Config := { cfgW with pollingInterval := 0, offline := true }

def cfgHalfW : Config := { cfgW with pollingInterval := 500000000, offline := true }

def cfgTwoW : Config :=
  { cfgW with pollingInterval := 2 * timeSecond, offline := true }

end FFClient

namespace RelayProxy

/-- The API-key fields of the relay-proxy `Config`
(`cmd/relayproxy/config/config.go`): the deprecated top-level `APIKeys` list
and the `AuthorizedKeys` struct with its `Admin` and `Evaluation` lists. -/
structure APIKeys where
  admin : List String
  evaluation : List String
deriving Repr

structure Config where
  apiKeys : List String
  authorizedKeys : APIKeys
deriving Repr

/-- `Config.APIKeysAdminExists` (lines 239–250): membership in the set built
from `AuthorizedKeys.Admin` (the lazily built `adminAPIKeySet`). -/
def APIKeysAdminExists (c : Config) (apiKey : String) : Bool :=
  c.authorizedKeys.admin.contains apiKey

/-- `Config.APIKeyExists` (lines 253–274): any admin key is accepted first;
otherwise membership in the set built from the deprecated `APIKeys` list and
`AuthorizedKeys.Evaluation`. -/
def APIKeyExists (c : Config) (apiKey : String) : Bool :=
  if APIKeysAdminExists c apiKey then true
  else (c.apiKeys ++ c.authorizedKeys.evaluation).contains apiKey

end RelayProxy

namespace FFClient

@[simp] theorem lookupKV_nil {V : Type} (k : String) :
    lookupKV ([] : FlagMap V) k = none := rfl

theorem lookupKV_insertKV_self {V : Type} (m : FlagMap V) (k : String) (v : V) :
    lookupKV (insertKV m k v) k = some v := by
  induction m with
  | nil => simp [insertKV, lookupKV]
  | cons hd tl ih =>
      obtain ⟨k', v'⟩ := hd
      by_cases h : k' = k
      · simp [insertKV, h, lookupKV]
      · simp [insertKV, h, lookupKV, ih]

theorem lookupKV_insertKV_ne {V : Type} (m : FlagMap V) (k k' : String) (v : V)
    (h : k ≠ k') : lookupKV (insertKV m k v) k' = lookupKV m k' := by
  induction m with
  | nil => simp [insertKV, lookupKV, h]
  | cons hd tl ih =>
      obtain ⟨k₀, v₀⟩ := hd
      by_cases h₀ : k₀ = k
      · subst h₀
        simp [insertKV, lookupKV, h]
      · by_cases h₁ : k₀ = k'
        · subst h₁
          simp [insertKV, lookupKV, Ne.symm h, h₀]
        · simp [insertKV, h₀, lookupKV, h₁, ih]

/-- Merging a map whose lookup misses `k` leaves the accumulator's binding
for `k` unchanged. -/
theorem lookupKV_mergeOne_of_notMem {V : Type} (acc m : FlagMap V) (k : String)
    (h : ∀ p ∈ m, p.1 ≠ k) : lookupKV (mergeOne acc m) k = lookupKV acc k := by
  induction m generalizing acc with
  | nil => rfl
  | cons hd tl ih =>
      have hhd : hd.1 ≠ k := h hd (List.mem_cons_self hd tl)
      have htl : ∀ p ∈ tl, p.1 ≠ k := fun p hp => h p (List.mem_cons_of_mem hd hp)
      simpa [mergeOne] using
        (ih (insertKV acc hd.1 hd.2) htl).trans
          (lookupKV_insertKV_ne acc hd.1 k hd.2 hhd)

/-- `lookupKV m k = none` exactly when no pair in `m` has key `k`. -/
theorem lookupKV_eq_none_iff {V : Type} (m : FlagMap V) (k : String) :
    lookupKV m k = none ↔ ∀ p ∈ m, p.1 ≠ k := by
  induction m with
  | nil => simp
  | cons hd tl ih =>
      obtain ⟨k', v'⟩ := hd
      by_cases h : k' = k
      · subst h
        simp [lookupKV]
      · simp [lookupKV, h, ih]

/-- Merging a duplicate-free map on top of the accumulator yields the map's
own binding for any key the map binds. -/
theorem lookupKV_mergeOne_of_mem {V : Type} (acc m : FlagMap V) (k : String) (v : V)
    (hnd : KeysNodup m) (h : lookupKV m k = some v) :
    lookupKV (mergeOne acc m) k = some v := by
  induction m generalizing acc with
  | nil => simp [lookupKV] at h
  | cons hd tl ih =>
      obtain ⟨k', v'⟩ := hd
      have hnd' : KeysNodup tl := (List.nodup_cons.mp hnd).2
      by_cases hk : k' = k
      · subst hk
        simp only [lookupKV, if_pos rfl, Option.some.injEq] at h
        have hnotin : k' ∉ tl.map Prod.fst := (List.nodup_cons.mp hnd).1
        have hmiss : ∀ p ∈ tl, p.1 ≠ k' := by
          intro p hp hpk
          exact hnotin (hpk ▸ List.mem_map_of_mem Prod.fst hp)
        have hrest := lookupKV_mergeOne_of_notMem (insertKV acc k' v') tl k' hmiss
        simp only [mergeOne] at hrest ⊢
        simp only [List.foldl_cons]
        rw [hrest, lookupKV_insertKV_self]
        simpa using h
      · simp only [lookupKV, if_neg hk] at h
        simpa [mergeOne] using ih (insertKV acc k' v') hnd' h

/-- Folding `mergeOne` over maps that all miss `k` never changes the binding
for `k`. -/
theorem lookupKV_foldl_mergeOne_of_none {V : Type} (ms : List (FlagMap V))
    (acc : FlagMap V) (k : String) (h : ∀ m ∈ ms, lookupKV m k = none) :
    lookupKV (ms.foldl mergeOne acc) k = lookupKV acc k := by
  induction ms generalizing acc with
  | nil => rfl
  | cons hd tl ih =>
      have hd_miss := (lookupKV_eq_none_iff hd k).mp (h hd (List.mem_cons_self hd tl))
      rw [List.foldl_cons, ih _ (fun m hm => h m (List.mem_cons_of_mem hd hm)),
        lookupKV_mergeOne_of_notMem _ _ _ hd_miss]

/-- In the index-ordered merge, a key ends up bound to the value from the
highest-index map that binds it. -/
theorem lookupKV_mergeAll_highest {V : Type} (ms : List (FlagMap V)) (k : String)
    (v : V) (i : Nat) (hi : i < ms.length) (hnd : KeysNodup ms[i])
    (hv : lookupKV ms[i] k = some v)
    (hhigh : ∀ j, i < j → (hj : j < ms.length) → lookupKV ms[j] k = none) :
    lookupKV (mergeAll ms) k = some v := by
  have key : mergeAll ms
      = (ms.drop (i+1)).foldl mergeOne ((ms.take (i+1)).foldl mergeOne []) := by
    rw [mergeAll, ← List.foldl_append, List.take_append_drop]
  rw [key]
  have hdrop : ∀ m ∈ ms.drop (i+1), lookupKV m k = none := by
    intro m hm
    obtain ⟨j, hjlt, hjeq⟩ := List.mem_iff_getElem.mp hm
    have hjlen : i + 1 + j < ms.length := by
      have := List.length_drop (i+1) ms ▸ hjlt
      omega
    rw [List.getElem_drop] at hjeq
    rw [← hjeq]
    exact hhigh (i + 1 + j) (by omega) hjlen
  rw [lookupKV_foldl_mergeOne_of_none _ _ _ hdrop]
  have htake : ms.take (i+1) = ms.take i ++ [ms[i]] := by
    rw [List.take_succ, List.getElem?_eq_getElem hi]
    rfl
  rw [htake, List.foldl_append, List.foldl_cons, List.foldl_nil]
  exact lookupKV_mergeOne_of_mem _ _ _ _ hnd hv

@[simp] theorem sourceResult_index {B V : Type}
    (convert : B → String → Except String (FlagMap V)) (format : String)
    (r : Retriever B) (index : Nat) :
    (sourceResult convert format r index).index = index := by
  unfold sourceResult
  split
  · rfl
  · split
    · rfl
    · split <;> rfl

/-- When no result in the completion order carries an error, the receive loop
reaches the channel close and returns the fully written slot array. -/
theorem collectResults_of_no_error {V : Type} (res : Nat → Results V)
    (order : List Nat) (slots : List (FlagMap V))
    (h : ∀ i ∈ order, (res i).error = none) :
    collectResults res order slots =
      Except.ok (order.foldl (fun s i => s.set (res i).index (res i).value) slots) := by
  induction order generalizing slots with
  | nil => rfl
  | cons i rest ih =>
      have hi := h i (List.mem_cons_self i rest)
      rw [collectResults, hi]
      exact ih _ (fun j hj => h j (List.mem_cons_of_mem i hj))

/-- If the receive loop finished without aborting, every result in the
completion order was error-free. -/
theorem no_error_of_collectResults_ok {V : Type} (res : Nat → Results V)
    (order : List Nat) (slots out : List (FlagMap V))
    (h : collectResults res order slots = Except.ok out) :
    ∀ i ∈ order, (res i).error = none := by
  induction order generalizing slots with
  | nil => intro i hi; cases hi
  | cons j rest ih =>
      intro i hi
      rw [collectResults] at h
      cases herr : (res j).error with
      | some e => rw [herr] at h; cases h
      | none =>
          rw [herr] at h
          rcases List.mem_cons.mp hi with rfl | hmem
          · exact herr
          · exact ih _ h i hmem

theorem foldl_set_length {V : Type} (res : Nat → Results V) (order : List Nat)
    (slots : List (FlagMap V)) :
    (order.foldl (fun s i => s.set (res i).index (res i).value) slots).length
      = slots.length := by
  induction order generalizing slots with
  | nil => rfl
  | cons i rest ih => rw [List.foldl_cons, ih, List.length_set]

/-- Filling the slot array by index is order-insensitive: after the fold, a
slot holds its own source's value whenever that source's index appears in
the completion order, regardless of where. -/
theorem foldl_set_getElem {V : Type} (res : Nat → Results V) (order : List Nat)
    (slots : List (FlagMap V)) (hnd : order.Nodup)
    (hidx : ∀ i, (res i).index = i) (hlen : ∀ i ∈ order, i < slots.length)
    (j : Nat) :
    (order.foldl (fun s i => s.set (res i).index (res i).value) slots)[j]?
      = if j ∈ order then some (res j).value else slots[j]? := by
  induction order generalizing slots with
  | nil => simp
  | cons i rest ih =>
      have hindnd := List.nodup_cons.mp hnd
      have hilen : i < slots.length := hlen i (List.mem_cons_self i rest)
      rw [List.foldl_cons, hidx i,
        ih (slots.set i (res i).value) hindnd.2
          (fun a ha => by rw [List.length_set]; exact hlen a (List.mem_cons_of_mem i ha))]
      by_cases hji : j = i
      · subst hji
        have hnotin : j ∉ rest := hindnd.1
        simp [hnotin, List.getElem?_set_self hilen]
      · by_cases hjr : j ∈ rest
        · simp [hjr, List.mem_cons, hji]
        · have : j ∈ i :: rest ↔ False := by simp [List.mem_cons, hji, hjr]
          simp [hjr, this, List.getElem?_set_ne (fun h => hji h.symm)]

/-- A cycle in which every task reports no error replaces the cache with the
index-ordered merge of the per-source contributions — whatever the
completion order, as long as every task reports exactly once. -/
theorem retrieveFlags_eq_ok {B V : Type}
    (convert : B → String → Except String (FlagMap V)) (format : String)
    (rs : List (Retriever B)) (c : CacheState V) (order : List Nat) (now : Nat)
    (hperm : order.Perm (List.range rs.length))
    (herr : ∀ i ∈ order,
      (sourceResult convert format (rs.getD i default) i).error = none) :
    retrieveFlagsAndUpdateCache convert format rs c order now =
      Except.ok (UpdateCache c (mergeAll (cycleValues convert format rs)) now) := by
  have hnd : order.Nodup := hperm.symm.nodup (List.nodup_range rs.length)
  have hmem : ∀ i, i ∈ order ↔ i < rs.length := by
    intro i
    rw [hperm.mem_iff, List.mem_range]
  have hlist : List.foldl
      (fun s i => s.set (sourceResult convert format (rs.getD i default) i).index
        (sourceResult convert format (rs.getD i default) i).value)
      (List.replicate rs.length []) order = cycleValues convert format rs := by
    apply List.ext_getElem?
    intro j
    rw [foldl_set_getElem _ _ _ hnd (fun i => sourceResult_index convert format _ i)
      (fun i hi => by rw [List.length_replicate]; exact (hmem i).mp hi) j]
    by_cases hj : j < rs.length
    · simp [hmem j, hj, cycleValues]
    · have h1 : (List.replicate rs.length ([] : FlagMap V))[j]? = none :=
        List.getElem?_eq_none (by simpa using Nat.le_of_not_lt hj)
      have h2 : (List.range rs.length)[j]? = none :=
        List.getElem?_eq_none (by simpa using Nat.le_of_not_lt hj)
      simp [hmem j, hj, cycleValues, h1, h2]
  rw [retrieveFlagsAndUpdateCache, collectResults_of_no_error _ _ _ herr, hlist]

/-- A cycle in which some task reports a hard error aborts with an error
(whatever the completion order, as long as every task reports exactly
once), so the caller keeps the previous cache state. -/
theorem retrieveFlags_isErr {B V : Type}
    (convert : B → String → Except String (FlagMap V)) (format : String)
    (rs : List (Retriever B)) (c : CacheState V) (order : List Nat) (now : Nat)
    (hperm : order.Perm (List.range rs.length)) (i : Nat) (hi : i < rs.length)
    (herr : (sourceResult convert format (rs.getD i default) i).error ≠ none) :
    ∃ e, retrieveFlagsAndUpdateCache convert format rs c order now
      = Except.error e := by
  have hmem : i ∈ order := hperm.mem_iff.mpr (List.mem_range.mpr hi)
  rw [retrieveFlagsAndUpdateCache]
  cases hcol : collectResults
      (fun i => sourceResult convert format (rs.getD i default) i) order
      (List.replicate rs.length []) with
  | error e => exact ⟨e, rfl⟩
  | ok out =>
      exact absurd (no_error_of_collectResults_ok _ _ _ _ hcol i hmem) herr

/-- The per-source goroutine of a non-`Ready` initializable retriever sends
an empty, error-free result without calling `Retrieve`. -/
theorem sourceResult_notReady {B V : Type}
    (convert : B → String → Except String (FlagMap V)) (format : String)
    (r : Retriever B) (index : Nat) (hini : r.initializable = true)
    (hst : r.status ≠ RetrieverStatus.Ready) :
    sourceResult convert format r index
      = { error := none, value := [], index := index } := by
  rw [sourceResult, if_pos ⟨hini, hst⟩]

theorem cycleValues_length {B V : Type}
    (convert : B → String → Except String (FlagMap V)) (format : String)
    (rs : List (Retriever B)) :
    (cycleValues convert format rs).length = rs.length := by
  simp [cycleValues]

theorem cycleValues_getElem? {B V : Type}
    (convert : B → String → Except String (FlagMap V)) (format : String)
    (rs : List (Retriever B)) (i : Nat) (hi : i < rs.length) :
    (cycleValues convert format rs)[i]?
      = some (sourceResult convert format (rs.getD i default) i).value := by
  simp [cycleValues, List.getElem?_range hi, List.getD]

/-- If one cycle returned a new cache state, every task's result was
error-free. -/
theorem retrieveFlags_ok_no_error {B V : Type}
    (convert : B → String → Except String (FlagMap V)) (format : String)
    (rs : List (Retriever B)) (c : CacheState V) (order : List Nat) (now : Nat)
    (c1 : CacheState V)
    (h : retrieveFlagsAndUpdateCache convert format rs c order now
      = Except.ok c1) :
    ∀ i ∈ order, (sourceResult convert format (rs.getD i default) i).error = none := by
  rw [retrieveFlagsAndUpdateCache] at h
  cases hcol : collectResults
      (fun i => sourceResult convert format (rs.getD i default) i) order
      (List.replicate rs.length []) with
  | error e => rw [hcol] at h; cases h
  | ok slots => exact no_error_of_collectResults_ok _ _ _ _ hcol

/-- C1: in a refresh cycle over N sources, the merged Flag Definition Set
maps each colliding key to the value contributed by the highest-index source
contributing that key — the merge runs in ascending index order and later
sources overwrite earlier ones. -/
theorem C1_highest_index_wins {B V : Type}
    (convert : B → String → Except String (FlagMap V)) (format : String)
    (rs : List (Retriever B)) (c : CacheState V) (order : List Nat) (now : Nat)
    (k : String) (v : V) (i : Nat)
    (hperm : order.Perm (List.range rs.length))
    (herr : ∀ j ∈ order,
      (sourceResult convert format (rs.getD j default) j).error = none)
    (hi : i < rs.length)
    (hnd : KeysNodup (sourceResult convert format (rs.getD i default) i).value)
    (hv : lookupKV (sourceResult convert format (rs.getD i default) i).value k
      = some v)
    (hhigh : ∀ j, i < j → j < rs.length →
      lookupKV (sourceResult convert format (rs.getD j default) j).value k
        = none) :
    ∃ c1, retrieveFlagsAndUpdateCache convert format rs c order now
        = Except.ok c1
      ∧ lookupKV c1.flags k = some v := by
  refine ⟨_, retrieveFlags_eq_ok convert format rs c order now hperm herr, ?_⟩
  show lookupKV (mergeAll (cycleValues convert format rs)) k = some v
  have hlen := cycleValues_length (V := V) convert format rs
  have hi2 : i < (cycleValues convert format rs).length := by rw [hlen]; exact hi
  have hgi : (cycleValues convert format rs).get ⟨i, hi2⟩
      = (sourceResult convert format (rs.getD i default) i).value := by
    have h := cycleValues_getElem? convert format rs i hi
    rw [List.getElem?_eq_getElem hi2] at h
    exact Option.some.inj (by simpa [List.get_eq_getElem] using h)
  apply lookupKV_mergeAll_highest (cycleValues convert format rs) k v i hi2
  · rw [show (cycleValues convert format rs)[i] =
      (cycleValues convert format rs).get ⟨i, hi2⟩ from rfl, hgi]
    exact hnd
  · rw [show (cycleValues convert format rs)[i] =
      (cycleValues convert format rs).get ⟨i, hi2⟩ from rfl, hgi]
    exact hv
  · intro j hij hj
    have hj2 : j < rs.length := by rw [hlen] at hj; exact hj
    have hgj : (cycleValues convert format rs).get ⟨j, hj⟩
        = (sourceResult convert format (rs.getD j default) j).value := by
      have h := cycleValues_getElem? convert format rs j hj2
      rw [List.getElem?_eq_getElem hj] at h
      exact Option.some.inj (by simpa [List.get_eq_getElem] using h)
    rw [show (cycleValues convert format rs)[j] =
      (cycleValues convert format rs).get ⟨j, hj⟩ from rfl, hgj]
    exact hhigh j hij hj2

/-- C2: when some source's fetch or conversion yields a hard error, the
cycle returns that failure and the cache snapshot (flags and last-refresh
timestamp alike) is untouched; a `ForceRefresh` running such a cycle answers
`false` and leaves the whole instance state unchanged. -/
theorem C2_hard_error_aborts_cycle {B V E : Type}
    (convert : B → String → Except String (FlagMap V))
    (g : GoFeatureFlag B V E) (order : List Nat) (now : Nat) (i : Nat)
    (hperm : order.Perm (List.range g.retrievers.length))
    (hoff : g.IsOffline = false)
    (hi : i < g.retrievers.length)
    (herr : (sourceResult convert g.config.fileFormat
      (g.retrievers.getD i default) i).error ≠ none) :
    (∃ e, retrieveFlagsAndUpdateCache convert g.config.fileFormat g.retrievers
        (g.cache.getD emptyCache) order now = Except.error e)
  ∧ ForceRefresh convert g order now = (false, g) := by
  have hcyc := retrieveFlags_isErr convert g.config.fileFormat g.retrievers
    (g.cache.getD emptyCache) order now hperm i hi herr
  refine ⟨hcyc, ?_⟩
  obtain ⟨e, he⟩ := hcyc
  rw [ForceRefresh, hoff, he]
  rfl

/-- C6: a source whose readiness is not `Ready` contributes an empty flag
set and does not make the cycle fail: with all other sources error-free the
cycle completes and merges the rest normally. -/
theorem C6_not_ready_contributes_empty {B V : Type}
    (convert : B → String → Except String (FlagMap V)) (format : String)
    (rs : List (Retriever B)) (c : CacheState V) (order : List Nat) (now : Nat)
    (i : Nat) (hperm : order.Perm (List.range rs.length)) (hi : i < rs.length)
    (hini : (rs.getD i default).initializable = true)
    (hst : (rs.getD i default).status ≠ RetrieverStatus.Ready)
    (hothers : ∀ j ∈ order, j ≠ i →
      (sourceResult convert format (rs.getD j default) j).error = none) :
    retrieveFlagsAndUpdateCache convert format rs c order now
      = Except.ok (UpdateCache c (mergeAll (cycleValues convert format rs)) now)
    ∧ (cycleValues convert format rs)[i]? = some [] := by
  have hsr := sourceResult_notReady convert format (rs.getD i default) i hini hst
  have herr : ∀ j ∈ order,
      (sourceResult convert format (rs.getD j default) j).error = none := by
    intro j hj
    by_cases hji : j = i
    · subst hji
      rw [hsr]
    · exact hothers j hj hji
  refine ⟨retrieveFlags_eq_ok convert format rs c order now hperm herr, ?_⟩
  rw [cycleValues_getElem? convert format rs i hi, hsr]

/-- C7: the merged set one cycle produces is a deterministic function of the
per-source results and indices alone — two runs whose concurrent tasks
complete in different orders install identical flag sets. -/
theorem C7_merge_deterministic {B V : Type}
    (convert : B → String → Except String (FlagMap V)) (format : String)
    (rs : List (Retriever B)) (c : CacheState V)
    (order1 order2 : List Nat) (now1 now2 : Nat) (c1 c2 : CacheState V)
    (h1 : order1.Perm (List.range rs.length))
    (h2 : order2.Perm (List.range rs.length))
    (hr1 : retrieveFlagsAndUpdateCache convert format rs c order1 now1
      = Except.ok c1)
    (hr2 : retrieveFlagsAndUpdateCache convert format rs c order2 now2
      = Except.ok c2) :
    c1.flags = c2.flags := by
  have he1 := retrieveFlags_ok_no_error convert format rs c order1 now1 c1 hr1
  have he2 : ∀ j ∈ order2,
      (sourceResult convert format (rs.getD j default) j).error = none :=
    fun j hj => he1 j (h1.mem_iff.mpr (h2.mem_iff.mp hj))
  rw [retrieveFlags_eq_ok convert format rs c order1 now1 h1 he1] at hr1
  rw [retrieveFlags_eq_ok convert format rs c order2 now2 h2 he2] at hr2
  rw [← Except.ok.inj hr1, ← Except.ok.inj hr2]
  rfl

theorem normalizePollingInterval_of_nonneg (pi : Int) (h : 0 ≤ pi) :
    normalizePollingInterval pi
      = Except.ok (if pi = 0 then 60 * timeSecond
          else if pi < timeSecond then timeSecond else pi) := by
  rw [normalizePollingInterval]
  by_cases h0 : pi = 0
  · simp [h0]
  · have hneg : ¬pi < 0 := not_lt.mpr h
    by_cases hlt : pi < timeSecond <;> simp [h0, hneg, hlt]

theorem normalizePollingInterval_of_neg (pi : Int) (h : pi < 0) :
    normalizePollingInterval pi
      = Except.error (toString pi ++ " is not a valid PollingInterval value, it need to be > 0") := by
  have h0 : ¬pi = 0 := by omega
  rw [normalizePollingInterval, if_neg h0, if_pos h]

theorem newCycleStep_ok_shape {B V E : Type}
    (convert : B → String → Except String (FlagMap V)) (cfg : Config)
    (rs : List (Retriever B)) (order : List Nat) (now : Nat)
    (g : GoFeatureFlag B V E)
    (h : newCycleStep convert cfg rs order now = Except.ok g) :
    ∃ c1, g = mkInstance cfg rs c1 := by
  rw [newCycleStep] at h
  split at h
  · split at h
    · exact ⟨emptyCache, (Except.ok.inj h).symm⟩
    · cases h
  · next c1 _ => exact ⟨c1, (Except.ok.inj h).symm⟩

/-- Whenever `New` succeeds, the instance's configuration is the input one
with the polling interval replaced by its normalized value. -/
theorem New_ok_config {B V E : Type}
    (convert : B → String → Except String (FlagMap V)) (cfg : Config)
    (rs : List (Retriever B)) (initResult : Except String Unit)
    (order : List Nat) (now : Nat) (g : GoFeatureFlag B V E)
    (h : New convert cfg rs initResult order now = Except.ok g) :
    ∃ npi, normalizePollingInterval cfg.pollingInterval = Except.ok npi
      ∧ g.config = { cfg with pollingInterval := npi } := by
  rw [New] at h
  split at h
  · cases h
  · next npi heq =>
      refine ⟨npi, heq, ?_⟩
      rw [newWithConfig.eq_def] at h
      split at h
      · rw [← Except.ok.inj h]
        rfl
      · split at h
        · split at h
          · obtain ⟨c1, hc1⟩ := newCycleStep_ok_shape convert _ rs order now g h
            rw [hc1]
            rfl
          · cases h
        · obtain ⟨c1, hc1⟩ := newCycleStep_ok_shape convert _ rs order now g h
          rw [hc1]
          rfl

/-- C3: if the first synchronous fetch-merge-replace cycle fails (reached
with a non-offline configuration and a completed `Init`), construction
succeeds with a still-empty cache exactly when `StartWithRetrieverError` is
set, and otherwise fails with an initialization error. -/
theorem C3_first_cycle_failure {B V E : Type}
    (convert : B → String → Except String (FlagMap V)) (cfg : Config)
    (rs : List (Retriever B)) (initResult : Except String Unit)
    (order : List Nat) (now : Nat) (e : String)
    (hpi : 0 ≤ cfg.pollingInterval) (hoff : cfg.offline = false)
    (hreach : initResult = Except.ok () ∨ cfg.startWithRetrieverError = true)
    (hcycle : retrieveFlagsAndUpdateCache convert cfg.fileFormat rs
      (emptyCache (V := V)) order now = Except.error e) :
    (cfg.startWithRetrieverError = true →
      ∃ g : GoFeatureFlag B V E,
        New convert cfg rs initResult order now = Except.ok g
          ∧ g.cache = some emptyCache)
  ∧ (cfg.startWithRetrieverError = false →
      ∃ e2, New (B := B) (V := V) (E := E) convert cfg rs initResult order now
        = Except.error e2) := by
  have hn := normalizePollingInterval_of_nonneg cfg.pollingInterval hpi
  set npi : Int := (if cfg.pollingInterval = 0 then 60 * timeSecond
    else if cfg.pollingInterval < timeSecond then timeSecond
    else cfg.pollingInterval) with hnpi
  have hNew : New (B := B) (V := V) (E := E) convert cfg rs initResult order now
      = newWithConfig convert { cfg with pollingInterval := npi } rs initResult
          order now := by
    rw [New, hn]
  have hcfg_off : ({ cfg with pollingInterval := npi } : Config).offline = false :=
    hoff
  have hcfg_sw : ({ cfg with pollingInterval := npi } : Config).startWithRetrieverError
      = cfg.startWithRetrieverError := rfl
  have hstep : newCycleStep (E := E) convert { cfg with pollingInterval := npi }
      rs order now
      = (if cfg.startWithRetrieverError = true then
          Except.ok (mkInstance { cfg with pollingInterval := npi } rs emptyCache)
        else Except.error
          ("impossible to retrieve the flags, please check your configuration: " ++ e)) := by
    rw [newCycleStep]
    rw [show ({ cfg with pollingInterval := npi } : Config).fileFormat
      = cfg.fileFormat from rfl, hcycle, hcfg_sw]
  constructor
  · intro hs
    refine ⟨mkInstance { cfg with pollingInterval := npi } rs emptyCache, ?_, rfl⟩
    rw [hNew, newWithConfig.eq_def, if_neg (by rw [hcfg_off]; exact Bool.false_ne_true)]
    cases initResult with
    | error e3 =>
        show (if ({ cfg with pollingInterval := npi } : Config).startWithRetrieverError
              = true then
            newCycleStep convert { cfg with pollingInterval := npi } rs order now
          else Except.error
            ("impossible to initialize the retrievers, please check your configuration: "
              ++ e3)) = _
        rw [hcfg_sw, if_pos hs, hstep, if_pos hs]
    | ok u =>
        show newCycleStep convert { cfg with pollingInterval := npi } rs order now = _
        rw [hstep, if_pos hs]
  · intro hs
    rcases hreach with hinit | hst
    · subst hinit
      refine ⟨"impossible to retrieve the flags, please check your configuration: " ++ e, ?_⟩
      rw [hNew, newWithConfig.eq_def, if_neg (by rw [hcfg_off]; exact Bool.false_ne_true)]
      show newCycleStep convert { cfg with pollingInterval := npi } rs order now = _
      rw [hstep, if_neg (by rw [hs]; exact Bool.false_ne_true)]
    · rw [hst] at hs
      cases hs

/-- C4: construction normalizes the polling interval: a strictly negative
value makes construction return an error; zero becomes the documented
60-second default; a positive value below one second is clamped to exactly
one second; a value of at least one second is kept unchanged. -/
theorem C4_polling_interval_normalization {B V E : Type}
    (convert : B → String → Except String (FlagMap V)) (cfg : Config)
    (rs : List (Retriever B)) (initResult : Except String Unit)
    (order : List Nat) (now : Nat) :
    (cfg.pollingInterval < 0 →
      ∃ e, New (B := B) (V := V) (E := E) convert cfg rs initResult order now
        = Except.error e)
  ∧ (∀ g : GoFeatureFlag B V E,
      New convert cfg rs initResult order now = Except.ok g →
      g.config.pollingInterval =
        (if cfg.pollingInterval = 0 then 60 * timeSecond
         else if cfg.pollingInterval < timeSecond then timeSecond
         else cfg.pollingInterval)) := by
  constructor
  · intro hneg
    refine ⟨toString cfg.pollingInterval
      ++ " is not a valid PollingInterval value, it need to be > 0", ?_⟩
    rw [New, normalizePollingInterval_of_neg cfg.pollingInterval hneg]
  · intro g hok
    obtain ⟨npi, hnorm, hcfg⟩ :=
      New_ok_config convert cfg rs initResult order now g hok
    have h0 : 0 ≤ cfg.pollingInterval := by
      by_contra hneg
      rw [normalizePollingInterval_of_neg cfg.pollingInterval (by omega)] at hnorm
      cases hnorm
    rw [normalizePollingInterval_of_nonneg cfg.pollingInterval h0] at hnorm
    rw [hcfg]
    exact (Except.ok.inj hnorm).symm

/-- C5: `ForceRefresh` returns false and invokes no source `Retrieve` when
offline; otherwise it returns false exactly when the fetch-merge-replace
cycle fails — leaving the instance state untouched in that case — and true
on success. -/
theorem C5_force_refresh {B V E : Type}
    (convert : B → String → Except String (FlagMap V))
    (g : GoFeatureFlag B V E) (order : List Nat) (now : Nat) :
    (g.IsOffline = true →
      ForceRefresh convert g order now = (false, g)
        ∧ forceRefreshRetrieveCalls g = 0)
  ∧ (g.IsOffline = false →
      ((ForceRefresh convert g order now).1 = false ↔
        ∃ e, retrieveFlagsAndUpdateCache convert g.config.fileFormat
          g.retrievers (g.cache.getD emptyCache) order now = Except.error e)
    ∧ (∀ e, retrieveFlagsAndUpdateCache convert g.config.fileFormat
          g.retrievers (g.cache.getD emptyCache) order now = Except.error e →
        ForceRefresh convert g order now = (false, g))
    ∧ (∀ c1, retrieveFlagsAndUpdateCache convert g.config.fileFormat
          g.retrievers (g.cache.getD emptyCache) order now = Except.ok c1 →
        ForceRefresh convert g order now = (true, { g with cache := some c1 }))) := by
  constructor
  · intro hoff
    constructor
    · rw [ForceRefresh, if_pos hoff]
    · rw [forceRefreshRetrieveCalls, if_pos hoff]
  · intro hoff
    have hne : ¬g.IsOffline = true := by rw [hoff]; exact Bool.false_ne_true
    refine ⟨?_, ?_, ?_⟩
    · rw [ForceRefresh, if_neg hne]
      cases hc : retrieveFlagsAndUpdateCache convert g.config.fileFormat
          g.retrievers (g.cache.getD emptyCache) order now with
      | error e => simp
      | ok c1 => simp
    · intro e he
      rw [ForceRefresh, if_neg hne, he]
    · intro c1 hc1
      rw [ForceRefresh, if_neg hne, hc1]

/-- C8 (amended): `Close` tears the components down in exactly this fixed
order: close the Flag Cache first, then stop the Background Refresh Loop,
then close the Export Scheduler (performing its final flush), then shut down
the Source Manager. -/
theorem C8_close_order {B V E : Type} (g : GoFeatureFlag B V E)
    (hc : g.cache.isSome = true) (hb : g.bgUpdaterPresent = true)
    (he : g.exporter.isSome = true) (hm : g.managerPresent = true) :
    (GoFeatureFlagClose g).2
      = [TeardownStep.closeCache, TeardownStep.stopBgUpdater,
         TeardownStep.closeExporter, TeardownStep.shutdownManager] := by
  obtain ⟨c, hcs⟩ := Option.isSome_iff_exists.mp hc
  obtain ⟨s, hes⟩ := Option.isSome_iff_exists.mp he
  rw [GoFeatureFlagClose]
  simp only [hcs, hes, hb, hm]
  rfl

/-- C9: on any constructed instance, a second `Close` after a completed
first one performs no state change beyond the idempotent guards: closing an
already-closed instance is the identity on its state (and, the operations
being total, neither call can panic or report an error). -/
theorem C9_close_idempotent {B V E : Type} (g : GoFeatureFlag B V E) :
    (GoFeatureFlagClose (GoFeatureFlagClose g).1).1 = (GoFeatureFlagClose g).1 := by
  rcases g with ⟨cfg, rs, cache, bp, bs, exp2, mp, msd⟩
  cases cache <;> cases exp2 <;> cases bp <;> cases mp <;>
    simp [GoFeatureFlagClose, cacheClose, exporterClose]

/-- Witness for C1: with sources `{a:1}` and `{a:2, b:3}` reporting in
completion order 1, 0, the merged cache maps the colliding key "a" to the
index-1 value 2. -/
theorem C1_highest_index_wins_witness :
    ∃ c1, retrieveFlagsAndUpdateCache convertW "yaml" rsW emptyCache [1, 0] 5
        = Except.ok c1
      ∧ lookupKV c1.flags "a" = some 2 :=
  C1_highest_index_wins convertW "yaml" rsW emptyCache [1, 0] 5 "a" 2 1
    (by decide) (by decide) (by decide) (by decide) (by decide)
    (by intro j h1 h2; rw [show rsW.length = 2 from rfl] at h2; omega)

/-- Witness for C2: with source 1 failing hard, the cycle errs and
`ForceRefresh` answers false leaving the instance unchanged. -/
theorem C2_hard_error_aborts_cycle_witness :
    (∃ e, retrieveFlagsAndUpdateCache convertW gErrW.config.fileFormat
      gErrW.retrievers (gErrW.cache.getD emptyCache) [0, 1] 7 = Except.error e)
  ∧ ForceRefresh convertW gErrW [0, 1] 7 = (false, gErrW) :=
  C2_hard_error_aborts_cycle convertW gErrW [0, 1] 7 1
    (by decide) (by decide) (by decide) (by decide)

/-- Witness for C3: a failing first cycle degrades to an empty cache when
`StartWithRetrieverError` is set, and aborts construction otherwise. -/
theorem C3_first_cycle_failure_witness :
    (∃ g : GoFeatureFlag String Nat Unit,
        New convertW cfgStartErrW rsErrW (Except.ok ()) [0, 1] 7 = Except.ok g
          ∧ g.cache = some emptyCache)
  ∧ (∃ e2, New (B := String) (V := Nat) (E := Unit) convertW cfgW rsErrW
      (Except.ok ()) [0, 1] 7 = Except.error e2) := by
  constructor
  · exact (C3_first_cycle_failure convertW cfgStartErrW rsErrW (Except.ok ())
      [0, 1] 7 "boom" (by decide) (by decide) (Or.inl rfl) (by decide)).1 (by decide)
  · exact (C3_first_cycle_failure convertW cfgW rsErrW (Except.ok ())
      [0, 1] 7 "boom" (by decide) (by decide) (Or.inl rfl) (by decide)).2 (by decide)

/-- Witness for C4 covering all four interval regimes. -/
theorem C4_polling_interval_normalization_witness :
    (∃ e, New (B := String) (V := Nat) (E := Unit) convertW cfgNegW rsW
      (Except.ok ()) [0, 1] 3 = Except.error e)
  ∧ (offlineInstance (B := String) (V := Nat) (E := Unit)
      { cfgZeroW with pollingInterval := 60 * timeSecond }).config.pollingInterval
      = 60 * timeSecond
  ∧ (offlineInstance (B := String) (V := Nat) (E := Unit)
      { cfgHalfW with pollingInterval := timeSecond }).config.pollingInterval
      = timeSecond
  ∧ (offlineInstance (B := String) (V := Nat) (E := Unit)
      { cfgTwoW with pollingInterval := 2 * timeSecond }).config.pollingInterval
      = 2 * timeSecond := by
  refine ⟨(C4_polling_interval_normalization convertW cfgNegW rsW (Except.ok ())
    [0, 1] 3).1 (by decide), ?_, ?_, ?_⟩
  · have h := (C4_polling_interval_normalization convertW cfgZeroW rsW
      (Except.ok ()) [0, 1] 3).2
      (offlineInstance (B := String) (V := Nat) (E := Unit)
        { cfgZeroW with pollingInterval := 60 * timeSecond })
      (by decide)
    exact h.trans (by decide)
  · have h := (C4_polling_interval_normalization convertW cfgHalfW rsW
      (Except.ok ()) [0, 1] 3).2
      (offlineInstance (B := String) (V := Nat) (E := Unit)
        { cfgHalfW with pollingInterval := timeSecond })
      (by decide)
    exact h.trans (by decide)
  · have h := (C4_polling_interval_normalization convertW cfgTwoW rsW
      (Except.ok ()) [0, 1] 3).2
      (offlineInstance (B := String) (V := Nat) (E := Unit)
        { cfgTwoW with pollingInterval := 2 * timeSecond })
      (by decide)
    exact h.trans (by decide)

/-- Witness for C5: offline skip, hard-failure false, success true. -/
theorem C5_force_refresh_witness :
    (ForceRefresh convertW gOffW [0, 1] 9 = (false, gOffW)
      ∧ forceRefreshRetrieveCalls gOffW = 0)
  ∧ ForceRefresh convertW gErrW [0, 1] 9 = (false, gErrW)
  ∧ (ForceRefresh convertW gW [0, 1] 9).1 = true := by
  refine ⟨(C5_force_refresh convertW gOffW [0, 1] 9).1 (by decide), ?_, ?_⟩
  · exact ((C5_force_refresh convertW gErrW [0, 1] 9).2 (by decide)).2.1
      "boom" (by decide)
  · have h := ((C5_force_refresh convertW gW [0, 1] 9).2 (by decide)).2.2
      { flags := [("a", 2), ("b", 3)], lastRefresh := 9 } (by decide)
    rw [h]

/-- Witness for C6: the not-ready source contributes an empty map and the
cycle succeeds on the other source's data. -/
theorem C6_not_ready_contributes_empty_witness :
    retrieveFlagsAndUpdateCache convertW "yaml" rsNotReadyW emptyCache [1, 0] 4
      = Except.ok (UpdateCache emptyCache
          (mergeAll (cycleValues convertW "yaml" rsNotReadyW)) 4)
    ∧ (cycleValues convertW "yaml" rsNotReadyW)[0]? = some [] :=
  C6_not_ready_contributes_empty convertW "yaml" rsNotReadyW emptyCache [1, 0] 4 0
    (by decide) (by decide) (by decide) (by decide) (by decide)

/-- Witness for C7: two runs with opposite completion orders install the
same flag set. -/
theorem C7_merge_deterministic_witness : cAW.flags = cBW.flags :=
  C7_merge_deterministic convertW "yaml" rsW emptyCache [0, 1] [1, 0] 3 4 cAW cBW
    (by decide) (by decide) (by decide) (by decide)

/-- C8 counterexample: on an instance with all four components present,
`Close` closes the Flag Cache before stopping the refresh loop, so the
claimed order (loop first, cache second) is not the executed one. -/
theorem C8_close_order_counterexample :
    (GoFeatureFlagClose gW).2
      ≠ [TeardownStep.stopBgUpdater, TeardownStep.closeCache,
         TeardownStep.closeExporter, TeardownStep.shutdownManager] := by
  decide

/-- Witness for the amended C8 order on a concrete instance. -/
theorem C8_close_order_witness :
    (GoFeatureFlagClose gW).2
      = [TeardownStep.closeCache, TeardownStep.stopBgUpdater,
         TeardownStep.closeExporter, TeardownStep.shutdownManager] :=
  C8_close_order gW (by decide) (by decide) (by decide) (by decide)

end FFClient

namespace RelayProxy

/-- C10: every admin API key is accepted wherever an evaluation API key is
accepted — `APIKeysAdminExists` returning true forces `APIKeyExists` to
return true for the same key. -/
theorem C10_admin_key_is_api_key (c : Config) (k : String)
    (h : APIKeysAdminExists c k = true) : APIKeyExists c k = true := by
  rw [APIKeyExists, if_pos h]

end RelayProxy

namespace FFClient

/-- Witness for C10 at a concrete relay-proxy configuration. -/
theorem C10_admin_key_is_api_key_witness :
    RelayProxy.APIKeyExists
      { apiKeys := [], authorizedKeys := { admin := ["k-admin"], evaluation := ["k-eval"] } }
      "k-admin" = true :=
  RelayProxy.C10_admin_key_is_api_key _ _ (by decide)

end FFClient
